import Mathlib

/-!
Verification development for the Project-Plan repository: a shallow
embedding of the spreadsheet-to-GitHub sync scripts (`sync-local.js`,
`scripts/sync-issues.js` with its two script variants, and the Apps
Script variant) and of the dashboard data loader (`src/types.ts`),
together with theorems settling the frozen claims about them.

Platform behaviour that the scripts invoke but do not implement
(the ECMAScript `Date` constructor on strings and numbers, the local
time zone, `XLSX.SSF.parse_date_code`) is modelled by an explicit
environment record `JsEnv`; theorems that depend on that behaviour
take the relevant facts as hypotheses and witnesses instantiate the
environment with a concrete ECMA-style model (`strictISOHost`).
-/

namespace PP

/-! ### JavaScript string primitives used by the scripts -/

/-- JS `\s` (whitespace class) restricted to the ASCII space characters;
used by `String.prototype.trim` and the `/Phase\s*(\d)/i` regex. -/
def isJsSpace (c : Char) : Bool :=
  c == ' ' || c == '\t' || c == '\n' || c == '\r' || c == '\x0b' || c == '\x0c'

/-- JS `String.prototype.trim`. -/
def jsTrim (s : String) : String :=
  String.mk (((s.data.dropWhile isJsSpace).reverse.dropWhile isJsSpace).reverse)

/-- ASCII lower-casing of one character, as `String.prototype.toLowerCase`
does on ASCII input. -/
def jsLowerChar (c : Char) : Char :=
  if 'A' ≤ c ∧ c ≤ 'Z' then Char.ofNat (c.toNat + 32) else c

/-- JS `String.prototype.toLowerCase` (ASCII fragment). -/
def jsToLower (s : String) : String :=
  String.mk (s.data.map jsLowerChar)

/-- Whether `needle` occurs at the head of `hay`. -/
def isPrefixList : List Char → List Char → Bool
  | [], _ => true
  | _ :: _, [] => false
  | a :: as, b :: bs => a == b && isPrefixList as bs

/-- Whether `needle` occurs anywhere in `hay`. -/
def containsSub (needle : List Char) : List Char → Bool
  | [] => isPrefixList needle []
  | c :: rest => isPrefixList needle (c :: rest) || containsSub needle rest

/-- JS `String.prototype.includes`. -/
def jsIncludes (s sub : String) : Bool :=
  containsSub sub.data s.data

/-- JS `a || b` on strings: `b` when `a` is the empty (falsy) string. -/
def jsOr (a b : String) : String :=
  if a == "" then b else a

/-- JS `s.split(':')[0]`: the text before the first colon. -/
def beforeColon (s : String) : String :=
  String.mk (s.data.takeWhile (fun c => c != ':'))

/-- JS `s.padStart(2, '0')`. -/
def padStart2 (s : String) : String :=
  if s.length == 0 then "00" else if s.length == 1 then "0" ++ s else s

/-! ### Date values and the platform environment -/

/-- Calendar fields as returned by `XLSX.SSF.parse_date_code`. -/
structure YMD where
  y : Nat
  m : Nat
  d : Nat
deriving DecidableEq, Repr

/-- The observable face of a JS `Date` object as the scripts use it:
the `toISOString().split('T')[0]` day, the local calendar getters
(`getFullYear`, `getMonth` — zero-based, `getDate`), and `getTime()`. -/
structure DateObj where
  isoDay : String
  locY : Nat
  locM0 : Nat
  locD : Nat
  epochMs : Int
deriving DecidableEq, Repr

/-- A raw spreadsheet cell value as seen by the scripts. -/
inductive CellValue where
  | null
  | date (d : DateObj)
  | num (n : Int)
  | str (s : String)
deriving DecidableEq, Repr

/-- JS falsiness of a cell value (`!value`). -/
def jsFalsy : CellValue → Bool
  | .null => true
  | .date _ => false
  | .num n => n == 0
  | .str s => s == ""

/-- The platform behaviour the scripts depend on: `new Date(string)`,
`new Date(number)`, the Excel-serial branch of the second sync script
(`new Date(excelEpoch.getTime() + value*86400000)`), the
`XLSX.SSF.parse_date_code` library call, `String(Date)`, and the clock.
`parseStr`/`parseNum` return `none` for an Invalid Date. -/
structure JsEnv where
  parseStr : String → Option DateObj
  parseNum : Int → Option DateObj
  serialDate : Int → DateObj
  ssf : Int → YMD
  dateStr : DateObj → String
  nowMs : Int
  todayMidnightMs : Int
  todayISO : String
  nowISOFull : String

/-! ### The `DD-Mon-YYYY` regex  `/(\d{1,2})-(\w{3})-(\d{4})/`

JS regex search: leftmost starting position wins, and at a position the
greedy `\d{1,2}` tries two digits before one. -/

/-- JS `\w`: ASCII letters, digits and underscore. -/
def isWordChar (c : Char) : Bool :=
  c.isAlpha || c.isDigit || c == '_'

/-- Attempt the pattern at the current position with a two-digit day. -/
def matchAt2 : List Char → Option (List Char × List Char × List Char)
  | a :: b :: c :: d :: e :: f :: g :: h :: i :: j :: k :: _ =>
    if a.isDigit && b.isDigit && c == '-' && isWordChar d && isWordChar e &&
        isWordChar f && g == '-' && h.isDigit && i.isDigit && j.isDigit && k.isDigit then
      some ([a, b], [d, e, f], [h, i, j, k])
    else none
  | _ => none

/-- Attempt the pattern at the current position with a one-digit day. -/
def matchAt1 : List Char → Option (List Char × List Char × List Char)
  | a :: c :: d :: e :: f :: g :: h :: i :: j :: k :: _ =>
    if a.isDigit && c == '-' && isWordChar d && isWordChar e && isWordChar f &&
        g == '-' && h.isDigit && i.isDigit && j.isDigit && k.isDigit then
      some ([a], [d, e, f], [h, i, j, k])
    else none
  | _ => none

/-- Attempt the pattern at the current position (greedy day length). -/
def matchDMY (cs : List Char) : Option (List Char × List Char × List Char) :=
  match matchAt2 cs with
  | some r => some r
  | none => matchAt1 cs

/-- Search for the pattern, leftmost position first, returning the
captured (day digits, month token, year digits). -/
def searchDMY : List Char → Option (List Char × List Char × List Char)
  | [] => none
  | c :: rest =>
    match matchDMY (c :: rest) with
    | some r => some r
    | none => searchDMY rest

/-- The scripts' 12-entry month-abbreviation table (exact, case-sensitive
property lookup). -/
def monthsLookup : String → Option String
  | "Jan" => some "01"
  | "Feb" => some "02"
  | "Mar" => some "03"
  | "Apr" => some "04"
  | "May" => some "05"
  | "Jun" => some "06"
  | "Jul" => some "07"
  | "Aug" => some "08"
  | "Sep" => some "09"
  | "Oct" => some "10"
  | "Nov" => some "11"
  | "Dec" => some "12"
  | _ => none

/-- `months[match[2]] || '01'`: unknown month tokens fall back to "01". -/
def monthOr01 (m : String) : String :=
  (monthsLookup m).getD "01"

/-- The string a regex match is turned into:
`` `${match[3]}-${months[match[2]] || '01'}-${match[1].padStart(2,'0')}` ``. -/
def dmyResult (dayCs monCs yearCs : List Char) : String :=
  String.mk yearCs ++ "-" ++ monthOr01 (String.mk monCs) ++ "-" ++ padStart2 (String.mk dayCs)

/-! ### The three `parseDate` variants -/

/-- `parseDate` from `sync-local.js` (identical to the first variant in
`scripts/sync-issues.js`): falsy ↦ null; Date ↦ ISO day; otherwise the
`DD-Mon-YYYY` regex on `String(value)`, falling back to `new Date(value)`
formatted with `toISOString().split('T')[0]`, or null on Invalid Date. -/
def syncLocalParseDate (env : JsEnv) : CellValue → Option String
  | .null => none
  | .date d => some d.isoDay
  | .num n =>
    if n == 0 then none
    else
      match searchDMY (toString n).data with
      | some (dayCs, monCs, yearCs) => some (dmyResult dayCs monCs yearCs)
      | none => (env.parseNum n).map (·.isoDay)
  | .str s =>
    if s == "" then none
    else
      match searchDMY s.data with
      | some (dayCs, monCs, yearCs) => some (dmyResult dayCs monCs yearCs)
      | none => (env.parseStr s).map (·.isoDay)

/-- `` `${d.getFullYear()}-${String(m).padStart(2,'0')}-${String(d).padStart(2,'0')}` ``:
the local-calendar-field template of the second `sync-issues.js` variant. -/
def localTemplate (d : DateObj) : String :=
  toString d.locY ++ "-" ++ padStart2 (toString (d.locM0 + 1)) ++ "-" ++ padStart2 (toString d.locD)

/-- `parseDate` from the second script of `scripts/sync-issues.js`
(`sync-local.cjs`): falsy ↦ null; numeric Excel serial ↦ local fields of
`new Date(excelEpoch.getTime() + value*86400000)`; Date ↦ local fields;
`DD-Mon-YYYY` regex; otherwise `new Date(value)` formatted from its local
calendar fields, or null on Invalid Date. -/
def syncIssues2ParseDate (env : JsEnv) : CellValue → Option String
  | .null => none
  | .num n =>
    if n == 0 then none
    else some (localTemplate (env.serialDate n))
  | .date d => some (localTemplate d)
  | .str s =>
    if s == "" then none
    else
      match searchDMY s.data with
      | some (dayCs, monCs, yearCs) => some (dmyResult dayCs monCs yearCs)
      | none =>
        match env.parseStr s with
        | some d => some (localTemplate d)
        | none => none

/-- `` `${date.y}-${String(date.m).padStart(2,'0')}-${String(date.d).padStart(2,'0')}` ``:
the template applied to `XLSX.SSF.parse_date_code` output in `types.ts`. -/
def ssfTemplate (v : YMD) : String :=
  toString v.y ++ "-" ++ padStart2 (toString v.m) ++ "-" ++ padStart2 (toString v.d)

/-- `parseDate` from the dashboard `src/types.ts`: falsy ↦ `''`;
Date ↦ ISO day; number ↦ `XLSX.SSF.parse_date_code` template; otherwise
trim, `DD-Mon-YYYY` regex, `new Date(str)` with `toISOString` formatting,
and — on total failure — the trimmed raw string itself. -/
def typesParseDate (env : JsEnv) : CellValue → String
  | .null => ""
  | .date d => d.isoDay
  | .num n =>
    if n == 0 then ""
    else ssfTemplate (env.ssf n)
  | .str s =>
    if s == "" then ""
    else
      let t := jsTrim s
      if t == "" then ""
      else
        match searchDMY t.data with
        | some (dayCs, monCs, yearCs) => dmyResult dayCs monCs yearCs
        | none =>
          match env.parseStr t with
          | some d => d.isoDay
          | none => t

/-! ### A concrete ECMA-style model of `new Date(string)`

ECMA-262 parses a date-only `YYYY-MM-DD` string as UTC midnight of that
calendar day (rejecting out-of-range components), and `toISOString`
round-trips it. `strictISOHost` models exactly this fragment in a UTC
locale (local getters agree with the UTC fields); it is the environment
used by the concrete witnesses. -/

def isLeap (y : Nat) : Bool :=
  (y % 4 == 0 && y % 100 != 0) || y % 400 == 0

def daysInMonth (y m : Nat) : Nat :=
  if m == 2 then (if isLeap y then 29 else 28)
  else if m == 4 || m == 6 || m == 9 || m == 11 then 30
  else 31

def validDate (y m d : Nat) : Bool :=
  decide (1 ≤ m) && decide (m ≤ 12) && decide (1 ≤ d) && decide (d ≤ daysInMonth y m)

/-- Days from 1970-01-01 to the given civil date (the standard
era-based civil-calendar conversion; divisions truncate toward zero on
the nonnegative values arising here). -/
def epochDays (y m d : Int) : Int :=
  let yy := if m ≤ 2 then y - 1 else y
  let era := (if 0 ≤ yy then yy else yy - 399) / 400
  let yoe := yy - era * 400
  let mp := (m + 9) % 12
  let doy := (153 * mp + 2) / 5 + d - 1
  let doe := yoe * 365 + yoe / 4 - yoe / 100 + doy
  era * 146097 + doe - 719468

/-- Numeric value of an ASCII digit character. -/
def dval (c : Char) : Nat := c.toNat - 48

/-- Whether a string is exactly `YYYY-MM-DD` shaped (four digits, dash,
two digits, dash, two digits). -/
def isCanonicalShape (s : String) : Bool :=
  match s.data with
  | [a, b, c, d, e, f, g, h, i, j] =>
    a.isDigit && b.isDigit && c.isDigit && d.isDigit && e == '-' &&
    f.isDigit && g.isDigit && h == '-' && i.isDigit && j.isDigit
  | _ => false

/-- Model of `new Date(string)` restricted to the ECMA date-only format,
in a UTC locale: a valid `YYYY-MM-DD` string parses to UTC midnight of
that day (so `toISOString` returns the string itself and the local
getters agree with the UTC fields); everything else is an Invalid Date. -/
def strictISOHost (s : String) : Option DateObj :=
  match s.data with
  | [a, b, c, d, e, f, g, h, i, j] =>
    if a.isDigit && b.isDigit && c.isDigit && d.isDigit && e == '-' &&
        f.isDigit && g.isDigit && h == '-' && i.isDigit && j.isDigit then
      let y := 1000 * dval a + 100 * dval b + 10 * dval c + dval d
      let m := 10 * dval f + dval g
      let dd := 10 * dval i + dval j
      if validDate y m dd then
        some { isoDay := s, locY := y, locM0 := m - 1, locD := dd,
               epochMs := 86400000 * epochDays (y : Int) (m : Int) (dd : Int) }
      else none
    else none
  | _ => none

/-- The concrete environment used by witnesses: ECMA date-only string
parsing in a UTC locale; the other platform hooks are fixed arbitrarily
(no witness exercises them). The clock is pinned to 2025-10-11 UTC. -/
def envUTC : JsEnv where
  parseStr := strictISOHost
  parseNum := fun _ => none
  serialDate := fun _ => { isoDay := "1970-01-01", locY := 1970, locM0 := 0, locD := 1, epochMs := 0 }
  ssf := fun _ => { y := 1900, m := 1, d := 1 }
  dateStr := fun d => d.isoDay
  nowMs := 1760140800000
  todayMidnightMs := 1760140800000
  todayISO := "2025-10-11"
  nowISOFull := "2025-10-11T00:00:00.000Z"

/-! ### The `/Phase\s*(\d)/i` regex of `getPhaseFromRow` / `getPhase` -/

/-- After matching `Phase` case-insensitively, the greedy `\s*` consumes
all whitespace and a digit must follow. -/
def firstDigitAfterWs : List Char → Option Char
  | [] => none
  | c :: rest =>
    if isJsSpace c then firstDigitAfterWs rest
    else if c.isDigit then some c
    else none

/-- Attempt `/Phase\s*(\d)/i` at the current position. -/
def matchPhaseAt : List Char → Option Char
  | p :: h :: a :: s :: e :: rest =>
    if jsLowerChar p == 'p' && jsLowerChar h == 'h' && jsLowerChar a == 'a' &&
        jsLowerChar s == 's' && jsLowerChar e == 'e' then
      firstDigitAfterWs rest
    else none
  | _ => none

/-- Search for `/Phase\s*(\d)/i`, returning the captured digit. -/
def phaseDigitSearch : List Char → Option Char
  | [] => none
  | c :: rest =>
    match matchPhaseAt (c :: rest) with
    | some d => some d
    | none => phaseDigitSearch rest

/-! ### Issue titles (Task Reconciler) -/

/-- A spreadsheet row as consumed by `sync-local.js` (the fields that
drive title, labels and the create/update decision). -/
structure RowSL where
  phase : String
  activity : String
  quarter : String
deriving DecidableEq, Repr

/-- `createIssueTitle` from `sync-local.js` (and, identically, the
inline title of the first `scripts/sync-issues.js` variant):
`` `[${phase.split(':')[0] || 'Task'}] ${activity}` ``. -/
def createIssueTitleSL (r : RowSL) : String :=
  "[" ++ jsOr (beforeColon r.phase) "Task" ++ "] " ++ r.activity

/-- A row as consumed by the second `scripts/sync-issues.js` variant
(exact-header spreadsheet assumed, so `getField` is plain field access). -/
structure RowSI2 where
  phase : String
  activity : String
deriving DecidableEq, Repr

/-- `getPhaseFromRow` from the second `scripts/sync-issues.js` variant:
`/Phase\s*(\d)/i` on the Phase column, else a fixed table of activity
keyword fallbacks, else null. -/
def getPhaseFromRow (r : RowSI2) : Option String :=
  match phaseDigitSearch r.phase.data with
  | some d => some ("Phase " ++ String.mk [d])
  | none =>
    let a := r.activity
    if jsIncludes a "Phase 1" || jsIncludes a "PT1 Breakdown" ||
        jsIncludes a "Evidence Gathering" || jsIncludes a "Documentation Analysis" ||
        jsIncludes a "Third party" then some "Phase 1"
    else if jsIncludes a "Phase 2" || jsIncludes a "Automation" ||
        jsIncludes a "Statement of Conformity" || jsIncludes a "Pilot Product" then some "Phase 2"
    else if jsIncludes a "Phase 3" || jsIncludes a "Internal Audit" ||
        jsIncludes a "Process Mandate" then some "Phase 3"
    else if jsIncludes a "Phase 4" || jsIncludes a "Conformance Delivery" ||
        jsIncludes a "Products not covered" then some "Phase 4"
    else if jsIncludes a "Phase 5" || jsIncludes a "Lifecycle" ||
        jsIncludes a "PDS Solution" then some "Phase 5"
    else none

/-- `createIssueTitle` from the second `scripts/sync-issues.js` variant:
`[<phase>] <activity>` when a phase was derived, otherwise the bare
activity (with `'Untitled Task'` for an empty activity). -/
def createIssueTitleSI2 (r : RowSI2) : String :=
  match getPhaseFromRow r with
  | some p => "[" ++ p ++ "] " ++ jsOr r.activity "Untitled Task"
  | none => jsOr r.activity "Untitled Task"

/-- A row as consumed by the Apps Script variant (post column extraction). -/
structure RowAS where
  phase : String
  activity : String
deriving DecidableEq, Repr

/-- `getPhase` from the Apps Script variant: `/Phase\s*(\d)/i` only. -/
def getPhaseAS (phaseText : String) : Option String :=
  if phaseText == "" then none
  else
    match phaseDigitSearch phaseText.data with
    | some d => some ("Phase " ++ String.mk [d])
    | none => none

/-- `createIssueTitle` from the Apps Script variant. -/
def createIssueTitleAS (r : RowAS) : String :=
  match getPhaseAS r.phase with
  | some p => "[" ++ p ++ "] " ++ jsOr r.activity "Untitled Task"
  | none => jsOr r.activity "Untitled Task"

/-! ### Labels (`ensureLabel`) -/

/-- An existing tracker item, as the spec's RemoteItem: identifier and
title. -/
structure Issue where
  number : Nat
  title : String
deriving DecidableEq, Repr

/-- Remote calls issued by the sync run. -/
inductive ApiCall where
  | fetchIssues
  | getLabel (name : String)
  | createLabel (name color : String)
  | createIssue (title : String)
  | updateIssue (number : Nat)
deriving DecidableEq, Repr

/-- Outcome of the `GET /labels/<name>` lookup: success, or an HTTP
rejection with its status code (404 = not found). -/
inductive LookupOutcome where
  | ok
  | httpErr (code : Nat)
deriving DecidableEq, Repr

/-- What one `ensureLabel` invocation did: whether it issued a create
call and whether it let an error escape to its caller. -/
structure EnsureOutcome where
  createCalled : Bool
  errorThrown : Bool
deriving DecidableEq, Repr

/-- `ensureLabel` from `sync-local.js` (same shape in the second
`sync-issues.js` variant and the Apps Script): try the lookup; in the
catch, create only when the error message carries status 404; any other
caught error is dropped — nothing is rethrown. -/
def ensureLabelSL (lookup : LookupOutcome) : EnsureOutcome :=
  match lookup with
  | .ok => { createCalled := false, errorThrown := false }
  | .httpErr c =>
    if c == 404 then { createCalled := true, errorThrown := false }
    else { createCalled := false, errorThrown := false }

/-- `ensureLabel` from the first `scripts/sync-issues.js` variant: the
bare `catch` creates the label on any lookup failure whatsoever. -/
def ensureLabelSI1 (lookup : LookupOutcome) : EnsureOutcome :=
  match lookup with
  | .ok => { createCalled := false, errorThrown := false }
  | .httpErr _ => { createCalled := true, errorThrown := false }

/-- The label lookup against a server-side label store: found, or a 404
rejection (GET by exact name). -/
def storeLookup (labels : List (String × String)) (name : String) : LookupOutcome :=
  if labels.any (fun e => e.1 == name) then .ok else .httpErr 404

/-- `ensureLabel` run against a label store: lookup by exact name, and
on the 404 path create the label (the server then holds it). Returns
the new store and the API calls issued. -/
def ensureLabelStore (labels : List (String × String)) (name color : String) :
    List (String × String) × List ApiCall :=
  match storeLookup labels name with
  | .ok => (labels, [.getLabel name])
  | .httpErr c =>
    if c == 404 then (labels ++ [(name, color)], [.getLabel name, .createLabel name color])
    else (labels, [.getLabel name])

/-- Number of label-create calls in a call trace. -/
def countCreates (calls : List ApiCall) : Nat :=
  (calls.filter (fun c => match c with | .createLabel _ _ => true | _ => false)).length

/-! ### `sync-local.js` `syncRow` and `main` (Batch Driver) -/

/-- The `PHASE_LABELS` table of `sync-local.js`, in insertion order:
name, color, description. -/
def phaseLabelsSL : List (String × String × String) :=
  [("Phase 1", "0052CC", "Phase 1 tasks"),
   ("Phase 2", "5319E7", "Phase 2 tasks"),
   ("Phase 3", "0E8A16", "Phase 3 tasks")]

/-- The `QUARTER_LABELS` table of `sync-local.js`. -/
def quarterLabelsSL : List (String × String × String) :=
  [("Q4 2025", "FBCA04", "Q4 2025 deliverables"),
   ("Q1 2026", "F9D0C4", "Q1 2026 deliverables"),
   ("Q2 2026", "C5DEF5", "Q2 2026 deliverables"),
   ("Q3 2026", "BFD4F2", "Q3 2026 deliverables"),
   ("Q4 2026", "D4C5F9", "Q4 2026 deliverables")]

/-- Server-side state touched by the run: the label store, the issue
list, and the number the next created issue receives. -/
structure World where
  labels : List (String × String)
  issues : List Issue
  nextNumber : Nat
deriving DecidableEq, Repr

/-- The action `syncRow` reports. -/
inductive SyncAction where
  | created
  | updated
  | skipped
deriving DecidableEq, Repr

/-- The label-ensuring prefix of `sync-local.js` `syncRow`: first
`PHASE_LABELS` key contained in the phase text (with `break`), then the
exact `QUARTER_LABELS` key, each idempotently ensured. -/
def syncRowLabelsSL (r : RowSL) (w : World) : World × List ApiCall :=
  let step1 :=
    match phaseLabelsSL.find? (fun e => jsIncludes r.phase e.1) with
    | some (k, color, _) =>
      let p := ensureLabelStore w.labels k color
      ({ w with labels := p.1 }, p.2)
    | none => (w, [])
  if r.quarter == "" then step1
  else
    match quarterLabelsSL.find? (fun e => e.1 == r.quarter) with
    | some (k, color, _) =>
      let p := ensureLabelStore step1.1.labels k color
      ({ step1.1 with labels := p.1 }, step1.2 ++ p.2)
    | none => step1

/-- Result of one `syncRow` call. -/
structure SyncRowResult where
  world : World
  calls : List ApiCall
  action : SyncAction
deriving Repr

/-- `syncRow` from `sync-local.js`: skip on empty activity; ensure the
labels; find an existing issue by exact title equality against the
passed-in snapshot; PATCH it, or POST a new issue. The snapshot argument
is only read, never extended. -/
def syncRowSLFull (r : RowSL) (existing : List Issue) (w : World) : SyncRowResult :=
  if r.activity == "" then { world := w, calls := [], action := .skipped }
  else
    let title := createIssueTitleSL r
    let lw := syncRowLabelsSL r w
    match existing.find? (fun i => i.title == title) with
    | some i =>
      { world := lw.1, calls := lw.2 ++ [.updateIssue i.number], action := .updated }
    | none =>
      { world := { lw.1 with
                   issues := lw.1.issues ++ [{ number := lw.1.nextNumber, title := title }],
                   nextNumber := lw.1.nextNumber + 1 },
        calls := lw.2 ++ [.createIssue title], action := .created }

/-- `syncRow` restricted to its create-or-update decision (the match on
lines 819–821 of `scripts/sync-issues.js`, second variant): an existing
issue whose title contains the activity, or equals the new title. -/
def syncRowActionSI2 (existing : List Issue) (r : RowSI2) : SyncAction :=
  if r.activity == "" then .skipped
  else
    match existing.find? (fun i => jsIncludes i.title r.activity || i.title == createIssueTitleSI2 r) with
    | some _ => .updated
    | none => .created

/-- Created/updated/skipped tallies of `main`. -/
structure Counts where
  created : Nat
  updated : Nat
  skipped : Nat
deriving DecidableEq, Repr

/-- Accumulated state of the `main` loop of `sync-local.js`: the server
world, the trace of API calls so far, the `existingIssues` binding used
for lookups, and the tallies. -/
structure BatchState where
  world : World
  calls : List ApiCall
  view : List Issue
  counts : Counts
deriving Repr

/-- One iteration of the row loop in `main`. -/
def batchStepSL (acc : BatchState) (r : RowSL) : BatchState :=
  if r.activity == "" then
    { acc with counts := { acc.counts with skipped := acc.counts.skipped + 1 } }
  else
    let res := syncRowSLFull r acc.view acc.world
    { world := res.world
      calls := acc.calls ++ res.calls
      view := acc.view
      counts :=
        match res.action with
        | .created => { acc.counts with created := acc.counts.created + 1 }
        | .updated => { acc.counts with updated := acc.counts.updated + 1 }
        | .skipped => acc.counts }

/-- `main` from `sync-local.js` after the token check: fetch the issue
snapshot once, then run the row loop against that one in-memory list. -/
def runBatchSL (rows : List RowSL) (w : World) : BatchState :=
  rows.foldl batchStepSL
    { world := w, calls := [.fetchIssues], view := w.issues,
      counts := { created := 0, updated := 0, skipped := 0 } }

/-! ### Schedule Field Updater -/

/-- The two date fields on the project board. -/
inductive DateField where
  | startF
  | endF
deriving DecidableEq, Repr

/-- A board item's two date-field values. -/
structure BoardItem where
  startVal : Option String
  endVal : Option String
deriving DecidableEq, Repr

def setFieldVal (it : BoardItem) (f : DateField) (v : String) : BoardItem :=
  match f with
  | .startF => { it with startVal := some v }
  | .endF => { it with endVal := some v }

/-- `updateProjectItemDate` from `scripts/sync-issues.js`: return
without any write when the date value is falsy, otherwise issue the one
field mutation. -/
def updateProjectItemDate (it : BoardItem) (f : DateField) (dateValue : Option String) :
    BoardItem × List (DateField × String) :=
  match dateValue with
  | none => (it, [])
  | some v => if v == "" then (it, []) else (setFieldVal it f v, [(f, v)])

/-- The caller block in `main` of `scripts/sync-issues.js`
(`if (startDate) … ; if (endDate) …`): each field set independently. -/
def setItemDates (it : BoardItem) (startDate endDate : Option String) :
    BoardItem × List (DateField × String) :=
  let jsT : Option String → Bool := fun v => match v with | none => false | some s => s != ""
  let p1 := if jsT startDate then updateProjectItemDate it .startF startDate else (it, [])
  let p2 := if jsT endDate then updateProjectItemDate p1.1 .endF endDate else (p1.1, [])
  (p2.1, p1.2 ++ p2.2)

/-- `updateProjectDates` from the Apps Script variant: two independent
`if (date && field)` guarded mutations. -/
def updateProjectDates (it : BoardItem) (startDate endDate : String)
    (hasStartField hasEndField : Bool) : BoardItem × List (DateField × String) :=
  let p1 :=
    if startDate != "" && hasStartField then
      (setFieldVal it .startF startDate, [(DateField.startF, startDate)])
    else (it, [])
  let p2 :=
    if endDate != "" && hasEndField then
      (setFieldVal p1.1 .endF endDate, [(DateField.endF, endDate)])
    else (p1.1, [])
  (p2.1, p1.2 ++ p2.2)

/-! ### The dashboard data loader (`src/types.ts` `fetchProjectData`)

The network/proxy handling is an external collaborator; the embedding
starts from the decoded sheet, a list of rows of cell values. -/

/-- `TaskStatus` from `types.ts`. -/
inductive TaskStatus where
  | notStarted
  | inProgress
  | completed
  | blocked
deriving DecidableEq, Repr

/-- JS number arithmetic on task progress values, with `none` playing
the role of `NaN` (real/double division is modelled by exact rational
arithmetic; `Math.round` rounds half toward positive infinity, as
`round` does). -/
def jsAddQ : Option ℚ → Option ℚ → Option ℚ
  | some a, some b => some (a + b)
  | _, _ => none

def jsDivQ : Option ℚ → Option ℚ → Option ℚ
  | some a, some b => some (a / b)
  | _, _ => none

def jsRoundQ : Option ℚ → Option ℚ
  | some q => some ((round q : ℤ) : ℚ)
  | none => none

/-- `determineStatus` from `types.ts`: completed when the end date lies
strictly before today's local midnight, in-progress when the start date
is not after it; comparisons against an Invalid Date (`none`) are
false, as NaN comparisons are. -/
def determineStatus (env : JsEnv) (startDate endDate : String) : TaskStatus :=
  if startDate == "" && endDate == "" then .notStarted
  else
    let st := if startDate == "" then none else env.parseStr startDate
    let en := if endDate == "" then none else env.parseStr endDate
    if (match en with | some e => decide (e.epochMs < env.todayMidnightMs) | none => false) then
      .completed
    else if (match st with | some t => decide (t.epochMs ≤ env.todayMidnightMs) | none => false) then
      .inProgress
    else .notStarted

/-- `calculateProgress` from `types.ts`: 0 without both dates, clamped
at 0/100 outside the interval, otherwise the rounded elapsed fraction;
`none` models the NaN produced when a date string fails to parse. -/
def calculateProgress (env : JsEnv) (startDate endDate : String) : Option ℚ :=
  if startDate == "" || endDate == "" then some 0
  else
    let st := env.parseStr startDate
    let en := env.parseStr endDate
    if (match en with | some e => decide (env.nowMs ≥ e.epochMs) | none => false) then some 100
    else if (match st with | some t => decide (env.nowMs ≤ t.epochMs) | none => false) then some 0
    else
      match st, en with
      | some t, some e =>
        some ((round ((((env.nowMs : ℚ) - (t.epochMs : ℚ)) /
          ((e.epochMs : ℚ) - (t.epochMs : ℚ))) * 100) : ℤ) : ℚ)
      | _, _ => none

/-- A dashboard task record (`Task` in `types.ts`). -/
structure Task where
  id : String
  phase : String
  activity : String
  taskDetail : String
  principle : String
  deliverable : String
  owner : String
  quarter : String
  startDate : String
  endDate : String
  status : TaskStatus
  progress : Option ℚ
deriving DecidableEq, Repr

/-- A dashboard phase group (`Phase` in `types.ts`). -/
structure PhaseInfo where
  name : String
  tasks : List Task
  progress : Option ℚ
  startDate : String
  endDate : String
deriving DecidableEq, Repr

structure Stats where
  total : Nat
  completed : Nat
  inProgress : Nat
  notStarted : Nat
  overdue : Nat
deriving DecidableEq, Repr

/-- `ProjectData` from `types.ts`. -/
structure ProjectData where
  name : String
  tasks : List Task
  phases : List PhaseInfo
  lastUpdated : String
  stats : Stats
  overallProgress : Option ℚ
deriving DecidableEq, Repr

/-- The column indices resolved by `findCol` (−1 = not found). -/
structure Cols where
  phase : Int
  activity : Int
  taskDetail : Int
  principle : Int
  deliverable : Int
  owner : Int
  quarter : Int
  startDate : Int
  endDate : Int
deriving DecidableEq, Repr

/-- Linear scan with running index, as the inner loop of `findCol`. -/
def findIdxAux (p : String → Bool) : List String → Nat → Option Nat
  | [], _ => none
  | h :: t, i => if p h then some i else findIdxAux p t (i + 1)

/-- `findCol` from `types.ts`: lower-case and trim the headers, then for
each keyword in order return the first header containing it. -/
def findColGo (lower : List String) : List String → Int
  | [] => -1
  | kw :: rest =>
    match findIdxAux (fun h => jsIncludes h (jsToLower kw)) lower 0 with
    | some i => (i : Int)
    | none => findColGo lower rest

def findCol (headers : List String) (keywords : List String) : Int :=
  findColGo (headers.map (fun h => jsTrim (jsToLower h))) keywords

/-- The nine `findCol` calls of `fetchProjectData`. -/
def computeCols (headers : List String) : Cols where
  phase := findCol headers ["phase"]
  activity := findCol headers ["activity"]
  taskDetail := findCol headers ["task detail"]
  principle := findCol headers ["pt1 principle", "principle"]
  deliverable := findCol headers ["deliverable"]
  owner := findCol headers ["owner"]
  quarter := findCol headers ["quarter"]
  startDate := findCol headers ["start date", "start"]
  endDate := findCol headers ["end date", "end"]

/-- `row[i]` for a nonnegative index; out-of-range reads give
`undefined`, which the `|| ''` coercions below absorb. -/
def cellAt (row : List CellValue) (i : Int) : CellValue :=
  (row.get? i.toNat).getD .null

/-- `String(v || '')` on a cell value. -/
def jsStringOfCell (env : JsEnv) (c : CellValue) : String :=
  if jsFalsy c then ""
  else
    match c with
    | .null => ""
    | .str s => s
    | .num n => toString n
    | .date d => env.dateStr d

/-- `cols.x >= 0 ? String(row[cols.x] || '').trim() : ''`. -/
def colStr (env : JsEnv) (row : List CellValue) (i : Int) : String :=
  if 0 ≤ i then jsTrim (jsStringOfCell env (cellAt row i)) else ""

/-- `cols.x >= 0 ? parseDate(row[cols.x]) : ''`. -/
def colDate (env : JsEnv) (row : List CellValue) (i : Int) : String :=
  if 0 ≤ i then typesParseDate env (cellAt row i) else ""

/-- The task built for data row `i` of the sheet. -/
def taskOfRow (env : JsEnv) (cols : Cols) (i : Nat) (row : List CellValue) : Task :=
  let startDate := colDate env row cols.startDate
  let endDate := colDate env row cols.endDate
  { id := "task-" ++ toString i
    phase := colStr env row cols.phase
    activity := colStr env row cols.activity
    taskDetail := colStr env row cols.taskDetail
    principle := colStr env row cols.principle
    deliverable := colStr env row cols.deliverable
    owner := colStr env row cols.owner
    quarter := colStr env row cols.quarter
    startDate := startDate
    endDate := endDate
    status := determineStatus env startDate endDate
    progress := calculateProgress env startDate endDate }

/-- The row loop of `fetchProjectData`: skip empty rows and rows with a
blank activity; data rows are numbered from 1. -/
def buildTasks (env : JsEnv) (cols : Cols) : Nat → List (List CellValue) → List Task
  | _, [] => []
  | i, row :: rest =>
    if row.length == 0 then buildTasks env cols (i + 1) rest
    else if colStr env row cols.activity == "" then buildTasks env cols (i + 1) rest
    else taskOfRow env cols i row :: buildTasks env cols (i + 1) rest

/-- Insertion-ordered `Map<string, Task[]>` update (`phaseMap`). -/
def insertPhase (m : List (String × List Task)) (k : String) (t : Task) :
    List (String × List Task) :=
  match m with
  | [] => [(k, [t])]
  | (k', ts) :: rest =>
    if k' == k then (k', ts ++ [t]) :: rest else (k', ts) :: insertPhase rest k t

/-- Insertion sort implementing the default lexicographic
`Array.prototype.sort` on strings. -/
def sortStrInsert (x : String) : List String → List String
  | [] => [x]
  | y :: ys => if decide (x ≤ y) then x :: y :: ys else y :: sortStrInsert x ys

def sortStr : List String → List String
  | [] => []
  | x :: xs => sortStrInsert x (sortStr xs)

/-- `reduce((sum, t) => sum + t.progress, 0)`. -/
def sumProgress (ts : List Task) : Option ℚ :=
  ts.foldl (fun acc t => jsAddQ acc t.progress) (some 0)

/-- The phase record pushed by the `phaseMap.forEach` body. -/
def buildPhase (name : String) (ts : List Task) : PhaseInfo :=
  let starts := (ts.filter (fun t => t.startDate != "")).map (·.startDate)
  let ends := (ts.filter (fun t => t.endDate != "")).map (·.endDate)
  { name := name
    tasks := ts
    progress := jsRoundQ (jsDivQ (sumProgress ts) (some (ts.length : ℚ)))
    startDate := match sortStr starts with | [] => "" | x :: _ => x
    endDate := match (sortStr ends).reverse with | [] => "" | x :: _ => x }

/-- The stats block of `fetchProjectData`. -/
def buildStats (env : JsEnv) (tasks : List Task) : Stats where
  total := tasks.length
  completed := (tasks.filter (fun t => t.status == .completed)).length
  inProgress := (tasks.filter (fun t => t.status == .inProgress)).length
  notStarted := (tasks.filter (fun t => t.status == .notStarted)).length
  overdue := (tasks.filter (fun t =>
    t.status != .completed && t.endDate != "" && decide (t.endDate < env.todayISO))).length

/-- The pure core of `fetchProjectData` after a successful sheet
download: header row, column resolution, task loop, phase grouping,
stats; `none` models the `rows.length < 2` error return. -/
def buildProjectData (env : JsEnv) (rows : List (List CellValue)) : Option ProjectData :=
  match rows with
  | [] => none
  | headerRow :: dataRows =>
    if dataRows.length == 0 then none
    else
      let headers := headerRow.map (jsStringOfCell env)
      let cols := computeCols headers
      let tasks := buildTasks env cols 1 dataRows
      let pm := tasks.foldl
        (fun m t => if t.phase == "" then m else insertPhase m t.phase t) []
      some
        { name := "PSC Conformance Delivery Process Plan"
          tasks := tasks
          phases := pm.map (fun p => buildPhase p.1 p.2)
          lastUpdated := env.nowISOFull
          stats := buildStats env tasks
          overallProgress :=
            if tasks.length == 0 then some 0
            else jsRoundQ (jsDivQ (sumProgress tasks) (some (tasks.length : ℚ))) }

/-! ### Relations for the noninterference claim -/

/-- Two sheet rows that agree everywhere except possibly at column `k`. -/
def RowsAgree (k : Nat) (r1 r2 : List CellValue) : Prop :=
  r1.length = r2.length ∧ ∀ j, j ≠ k → r1.get? j = r2.get? j

/-- None of the nine resolved column indices is column `k`. -/
def ColsAvoid (k : Nat) (cols : Cols) : Prop :=
  cols.phase ≠ (k : Int) ∧ cols.activity ≠ (k : Int) ∧ cols.taskDetail ≠ (k : Int) ∧
  cols.principle ≠ (k : Int) ∧ cols.deliverable ≠ (k : Int) ∧ cols.owner ≠ (k : Int) ∧
  cols.quarter ≠ (k : Int) ∧ cols.startDate ≠ (k : Int) ∧ cols.endDate ≠ (k : Int)

instance (k : Nat) (cols : Cols) : Decidable (ColsAvoid k cols) := by
  unfold ColsAvoid; infer_instance

/-- `envUTC` relocated to a UTC−5 locale: `new Date("2025-10-01")` still
denotes the UTC midnight instant and ISO-formats to the same day, but
its local calendar getters read September 30. -/
def envWest : JsEnv :=
  { envUTC with
    parseStr := fun s =>
      if s == "2025-10-01" then
        some { isoDay := "2025-10-01", locY := 2025, locM0 := 8, locD := 30,
               epochMs := 1759276800000 }
      else none }

/-! ## Helper lemmas -/

lemma digit_beq_dash {c : Char} (h : c.isDigit = true) : (c == '-') = false := by
  cases hb : c == '-'
  · rfl
  · have : c = '-' := eq_of_beq hb
    subst this
    simp at h

lemma digit_not_space {c : Char} (h : c.isDigit = true) : isJsSpace c = false := by
  cases hb : isJsSpace c
  · rfl
  · unfold isJsSpace at hb
    simp only [Bool.or_eq_true, beq_iff_eq] at hb
    rcases hb with ((((h1 | h1) | h1) | h1) | h1) | h1 <;> (subst h1; simp at h)

/-- A `YYYY-MM-DD`-shaped string has no `/(\d{1,2})-(\w{3})-(\d{4})/`
match: the two dashes are only three characters apart, the pattern
needs four. -/
lemma searchDMY_canonical (s : String) (h : isCanonicalShape s = true) :
    searchDMY s.data = none := by
  rcases s with ⟨data⟩
  unfold isCanonicalShape at h
  match data with
  | [a, b, c, d, e, f, g, h1, i, j] =>
    simp only [Bool.and_eq_true, beq_iff_eq] at h
    obtain ⟨⟨⟨⟨⟨⟨⟨⟨⟨ha, hb⟩, hc⟩, hd⟩, he⟩, hf⟩, hg⟩, hh⟩, hi⟩, hj⟩ := h
    subst he; subst hh
    have m1 : matchAt1 [a, b, c, d, '-', f, g, '-', i, j] = none := by
      simp only [matchAt1]
      rw [digit_beq_dash hb]
      simp
    simp [searchDMY, matchDMY, m1, matchAt1, matchAt2]

lemma jsTrim_canonical (s : String) (h : isCanonicalShape s = true) : jsTrim s = s := by
  rcases s with ⟨data⟩
  unfold isCanonicalShape at h
  match data with
  | [a, b, c, d, e, f, g, h1, i, j] =>
    simp only [Bool.and_eq_true, beq_iff_eq] at h
    obtain ⟨⟨⟨⟨⟨⟨⟨⟨⟨ha, hb⟩, hc⟩, hd⟩, he⟩, hf⟩, hg⟩, hh⟩, hi⟩, hj⟩ := h
    subst he; subst hh
    simp [jsTrim, digit_not_space ha, digit_not_space hj, List.dropWhile]

lemma canonical_beq_empty (s : String) (h : isCanonicalShape s = true) : (s == "") = false := by
  rcases s with ⟨data⟩
  unfold isCanonicalShape at h
  match data with
  | [a, b, c, d, e, f, g, h1, i, j] => rfl

lemma fetch_not_in_ensure (L : List (String × String)) (n c : String) :
    ApiCall.fetchIssues ∉ (ensureLabelStore L n c).2 := by
  cases hb : L.any (fun e => e.1 == n) <;> simp [ensureLabelStore, storeLookup, hb]

lemma fetch_not_in_labels (r : RowSL) (w : World) :
    ApiCall.fetchIssues ∉ (syncRowLabelsSL r w).2 := by
  simp only [syncRowLabelsSL]
  repeat' split <;> simp_all [List.mem_append, fetch_not_in_ensure]

lemma fetch_not_in_syncRow (r : RowSL) (existing : List Issue) (w : World) :
    ApiCall.fetchIssues ∉ (syncRowSLFull r existing w).calls := by
  simp only [syncRowSLFull]
  repeat' split <;> simp_all [List.mem_append, fetch_not_in_labels]

lemma batchStep_view (acc : BatchState) (r : RowSL) : (batchStepSL acc r).view = acc.view := by
  unfold batchStepSL
  split <;> rfl

lemma batchStep_count (acc : BatchState) (r : RowSL) :
    (batchStepSL acc r).calls.count ApiCall.fetchIssues
      = acc.calls.count ApiCall.fetchIssues := by
  unfold batchStepSL
  split
  · rfl
  · simp [List.count_append, List.count_eq_zero.mpr (fetch_not_in_syncRow r acc.view acc.world)]

lemma runBatch_aux (rows : List RowSL) : ∀ acc : BatchState,
    (rows.foldl batchStepSL acc).view = acc.view
    ∧ (rows.foldl batchStepSL acc).calls.count ApiCall.fetchIssues
        = acc.calls.count ApiCall.fetchIssues := by
  induction rows with
  | nil => intro acc; exact ⟨rfl, rfl⟩
  | cons r rest ih =>
    intro acc
    simp only [List.foldl_cons]
    exact ⟨((ih _).1).trans (batchStep_view acc r), ((ih _).2).trans (batchStep_count acc r)⟩

lemma cellAt_agree {k : Nat} {r1 r2 : List CellValue} (hag : RowsAgree k r1 r2)
    {c : Int} (hck : c ≠ (k : Int)) (hc0 : 0 ≤ c) : cellAt r1 c = cellAt r2 c := by
  unfold cellAt
  rw [hag.2 c.toNat (by omega)]

lemma colStr_agree (env : JsEnv) {k : Nat} {r1 r2 : List CellValue}
    (hag : RowsAgree k r1 r2) {c : Int} (hck : c ≠ (k : Int)) :
    colStr env r1 c = colStr env r2 c := by
  unfold colStr
  by_cases h0 : 0 ≤ c
  · rw [if_pos h0, if_pos h0, cellAt_agree hag hck h0]
  · rw [if_neg h0, if_neg h0]

lemma colDate_agree (env : JsEnv) {k : Nat} {r1 r2 : List CellValue}
    (hag : RowsAgree k r1 r2) {c : Int} (hck : c ≠ (k : Int)) :
    colDate env r1 c = colDate env r2 c := by
  unfold colDate
  by_cases h0 : 0 ≤ c
  · rw [if_pos h0, if_pos h0, cellAt_agree hag hck h0]
  · rw [if_neg h0, if_neg h0]

lemma taskOfRow_agree (env : JsEnv) (cols : Cols) (i : Nat) {k : Nat}
    {r1 r2 : List CellValue} (hag : RowsAgree k r1 r2) (hcols : ColsAvoid k cols) :
    taskOfRow env cols i r1 = taskOfRow env cols i r2 := by
  obtain ⟨h1, h2, h3, h4, h5, h6, h7, h8, h9⟩ := hcols
  unfold taskOfRow
  rw [colDate_agree env hag h8, colDate_agree env hag h9,
      colStr_agree env hag h1, colStr_agree env hag h2, colStr_agree env hag h3,
      colStr_agree env hag h4, colStr_agree env hag h5, colStr_agree env hag h6,
      colStr_agree env hag h7]

lemma buildTasks_agree (env : JsEnv) (cols : Cols) {k : Nat} (hcols : ColsAvoid k cols)
    {d1 d2 : List (List CellValue)} (hf : List.Forall₂ (RowsAgree k) d1 d2) :
    ∀ i, buildTasks env cols i d1 = buildTasks env cols i d2 := by
  induction hf with
  | nil => intro i; rfl
  | @cons a b l1 l2 hab htail ih =>
    intro i
    unfold buildTasks
    rw [hab.1, colStr_agree env hab hcols.2.1]
    by_cases hl : (b.length == 0) = true
    · rw [if_pos hl, if_pos hl]
      exact ih (i + 1)
    · rw [if_neg hl, if_neg hl]
      by_cases hact : (colStr env b cols.activity == "") = true
      · rw [if_pos hact, if_pos hact]
        exact ih (i + 1)
      · rw [if_neg hact, if_neg hact, taskOfRow_agree env cols i hab hcols, ih (i + 1)]

/-! ## Claim C1 — Task Reconciler match policy -/

/-- C1 (amended): the "exactly equal title OR title contains the
activity" match policy holds for the reconciler of the second
`scripts/sync-issues.js` variant, where the `"[Phase 1] Kickoff
Meeting"` / `"Kickoff"` example is matched and updated; the
`sync-local.js` reconciler instead treats an item as the same task
exactly when its title equals the constructed title, with no substring
clause. -/
theorem c1_match_policy (existing : List Issue) (r : RowSI2) (h : r.activity ≠ "") :
    (syncRowActionSI2 existing r = .updated ↔
      ∃ i ∈ existing, jsIncludes i.title r.activity = true ∨ i.title = createIssueTitleSI2 r)
    ∧ (∀ (rl : RowSL) (snapshot : List Issue) (w : World), rl.activity ≠ "" →
        ((syncRowSLFull rl snapshot w).action = .updated ↔
          ∃ i ∈ snapshot, i.title = createIssueTitleSL rl))
    ∧ syncRowActionSI2 [⟨1, "[Phase 1] Kickoff Meeting"⟩] ⟨"Phase 1: Setup", "Kickoff"⟩
        = .updated := by
  have h' : (r.activity == "") = false := by simpa using h
  refine ⟨?_, ?_, by decide⟩
  · simp only [syncRowActionSI2, h', Bool.false_eq_true, if_false]
    cases hf : existing.find?
        (fun i => jsIncludes i.title r.activity || i.title == createIssueTitleSI2 r) with
    | some i =>
      simp only [hf]
      constructor
      · intro _
        refine ⟨i, List.mem_of_find?_eq_some hf, ?_⟩
        have hp := List.find?_some hf
        simpa using hp
      · intro _
        trivial
    | none =>
      simp only [hf]
      constructor
      · intro hh
        simp at hh
      · rintro ⟨i, hmem, hcond⟩
        have hni := List.find?_eq_none.mp hf i hmem
        rcases hcond with hc | hc
        · simp [hc] at hni
        · simp [hc] at hni
  · intro rl snapshot w hrl
    have h2 : (rl.activity == "") = false := by simpa using hrl
    simp only [syncRowSLFull, h2, Bool.false_eq_true, if_false]
    cases hf : snapshot.find? (fun i => i.title == createIssueTitleSL rl) with
    | some i =>
      simp only [hf]
      constructor
      · intro _
        refine ⟨i, List.mem_of_find?_eq_some hf, ?_⟩
        have hp := List.find?_some hf
        simpa using hp
      · intro _
        trivial
    | none =>
      simp only [hf]
      constructor
      · intro hh
        simp at hh
      · rintro ⟨i, hmem, hcond⟩
        have hni := List.find?_eq_none.mp hf i hmem
        simp [hcond] at hni

/-- C1 witness: the amended theorem applied to a concrete input — the
substring-matching reconciler updates the Kickoff example. -/
theorem c1_witness :
    syncRowActionSI2 [⟨1, "[Phase 1] Kickoff Meeting"⟩] ⟨"Phase 1: Setup", "Kickoff"⟩
      = .updated :=
  (c1_match_policy [] ⟨"", "x"⟩ (by decide)).2.2

/-- C1 counterexample: in `sync-local.js`, against a snapshot holding
exactly `"[Phase 1] Kickoff Meeting"`, the record with activity
`"Kickoff"` and phase `"Phase 1: Setup"` issues a create — no update —
even though the item's title contains the activity. -/
theorem c1_counterexample :
    jsIncludes "[Phase 1] Kickoff Meeting" "Kickoff" = true
    ∧ (syncRowSLFull ⟨"Phase 1: Setup", "Kickoff", ""⟩ [⟨1, "[Phase 1] Kickoff Meeting"⟩]
        ⟨[], [⟨1, "[Phase 1] Kickoff Meeting"⟩], 2⟩).action = .created := by decide

/-! ## Claim C2 — issue title construction -/

/-- C2 (amended): `sync-local.js` (and the first `sync-issues.js`
variant) brackets the phase text before the colon and falls back to the
literal `Task` only when that text is empty; the second
`sync-issues.js` variant and the Apps Script variant return the bare
activity, with no bracketed prefix at all, when no phase is derived.
Activity `"Kickoff"` with phase `"Phase 1: Setup"` yields
`"[Phase 1] Kickoff"` in every variant. -/
theorem c2_title_construction :
    (∀ act : String, createIssueTitleSL ⟨"", act, ""⟩ = "[Task] " ++ act)
    ∧ (∀ r : RowSI2, getPhaseFromRow r = none → r.activity ≠ "" →
        createIssueTitleSI2 r = r.activity)
    ∧ (∀ ph act : String, getPhaseAS ph = none → act ≠ "" →
        createIssueTitleAS ⟨ph, act⟩ = act)
    ∧ createIssueTitleSL ⟨"Phase 1: Setup", "Kickoff", ""⟩ = "[Phase 1] Kickoff"
    ∧ createIssueTitleSI2 ⟨"Phase 1: Setup", "Kickoff"⟩ = "[Phase 1] Kickoff"
    ∧ createIssueTitleAS ⟨"Phase 1: Setup", "Kickoff"⟩ = "[Phase 1] Kickoff" := by
  refine ⟨?_, ?_, ?_, by decide, by decide, by decide⟩
  · intro act
    rfl
  · intro r h hact
    simp [createIssueTitleSI2, h, jsOr, hact]
  · intro ph act h hact
    simp [createIssueTitleAS, h, jsOr, hact]

/-- C2 witness: the amended theorem applied to concrete rows with no
derivable phase. -/
theorem c2_witness :
    createIssueTitleSL ⟨"", "Kickoff", ""⟩ = "[Task] Kickoff"
    ∧ createIssueTitleSI2 ⟨"", "Kickoff"⟩ = "Kickoff" :=
  ⟨c2_title_construction.1 "Kickoff",
   c2_title_construction.2.1 ⟨"", "Kickoff"⟩ (by decide) (by decide)⟩

/-- C2 counterexample: the `createIssueTitle` cited from
`scripts/sync-issues.js` gives the bare activity, not `"[Task] …"`,
when no phase label is derivable. -/
theorem c2_counterexample :
    createIssueTitleSI2 ⟨"", "Kickoff"⟩ = "Kickoff"
    ∧ createIssueTitleSI2 ⟨"", "Kickoff"⟩ ≠ "[Task] Kickoff" := by decide

/-! ## Claim C3 — Date Parser failure behaviour -/

/-- C3 (amended): on text that cannot be parsed as a date (no
`DD-Mon-YYYY` match and an Invalid Date from the host parser), the two
sync-script parsers return null, but the dashboard's `types.ts` parser
returns the (trimmed) raw string unchanged rather than an empty value.
All variants are total functions — nothing throws. -/
theorem c3_failure_fallback (s : String) (env : JsEnv)
    (hne : s ≠ "") (htr : jsTrim s = s) (hre : searchDMY s.data = none)
    (hhost : env.parseStr s = none) :
    syncLocalParseDate env (.str s) = none
    ∧ syncIssues2ParseDate env (.str s) = none
    ∧ typesParseDate env (.str s) = s := by
  have hne' : (s == "") = false := by simpa using hne
  refine ⟨?_, ?_, ?_⟩
  · simp [syncLocalParseDate, hne', hre, hhost]
  · simp [syncIssues2ParseDate, hne', hre, hhost]
  · simp [typesParseDate, hne', htr, hre, hhost]

/-- C3 counterexample: `types.ts` `parseDate` hands the unparseable
text `"not a date"` back unchanged — neither canonical nor empty. -/
theorem c3_counterexample :
    typesParseDate envUTC (.str "not a date") = "not a date"
    ∧ "not a date" ≠ ""
    ∧ isCanonicalShape "not a date" = false := by decide

/-- C3 witness: the amended theorem applied to `"not a date"` in the
concrete ECMA-style environment. -/
theorem c3_witness :
    syncLocalParseDate envUTC (.str "not a date") = none
    ∧ syncIssues2ParseDate envUTC (.str "not a date") = none
    ∧ typesParseDate envUTC (.str "not a date") = "not a date" :=
  c3_failure_fallback "not a date" envUTC (by decide) (by decide) (by decide) (by decide)

/-! ## Claim C4 — Date Parser round-trip on canonical input -/

/-- C4 (amended): a canonical `YYYY-MM-DD` string is returned unchanged
by the ISO-formatting parsers of `sync-local.js` and `types.ts`
whenever the host parses it to a date whose ISO day is the string
itself (the ECMA-262 date-only guarantee, timezone-independent); the
local-calendar-field parser of the second `sync-issues.js` script
round-trips exactly when the local calendar fields of the parsed date
reformat to the original string — true in locales at or east of UTC,
false west of it. -/
theorem c4_roundtrip (s : String) (env : JsEnv) (dobj : DateObj)
    (hshape : isCanonicalShape s = true) (hhost : env.parseStr s = some dobj) :
    (dobj.isoDay = s →
      syncLocalParseDate env (.str s) = some s ∧ typesParseDate env (.str s) = s)
    ∧ (localTemplate dobj = s → syncIssues2ParseDate env (.str s) = some s) := by
  have hre := searchDMY_canonical s hshape
  have htr := jsTrim_canonical s hshape
  have hne' := canonical_beq_empty s hshape
  refine ⟨fun hiso => ⟨?_, ?_⟩, fun hloc => ?_⟩
  · simp [syncLocalParseDate, hne', hre, hhost, hiso]
  · simp [typesParseDate, hne', htr, hre, hhost, hiso]
  · simp [syncIssues2ParseDate, hne', hre, hhost, hloc]

/-- C4 counterexample: in a UTC−5 locale the local-calendar-field
parser maps the canonical string `"2025-10-01"` to `"2025-09-30"`,
breaking the round-trip. -/
theorem c4_counterexample :
    isCanonicalShape "2025-10-01" = true
    ∧ syncIssues2ParseDate envWest (.str "2025-10-01") = some "2025-09-30"
    ∧ "2025-09-30" ≠ "2025-10-01" := by decide

/-- C4 witness: the amended theorem applied to `"2025-10-01"` in the
UTC environment — all three parsers return the input unchanged. -/
theorem c4_witness :
    syncLocalParseDate envUTC (.str "2025-10-01") = some "2025-10-01"
    ∧ typesParseDate envUTC (.str "2025-10-01") = "2025-10-01"
    ∧ syncIssues2ParseDate envUTC (.str "2025-10-01") = some "2025-10-01" := by
  have h := c4_roundtrip "2025-10-01" envUTC
    { isoDay := "2025-10-01", locY := 2025, locM0 := 9, locD := 1, epochMs := 1759276800000 }
    (by decide) (by decide)
  exact ⟨(h.1 (by decide)).1, (h.1 (by decide)).2, h.2 (by decide)⟩

/-! ## Claim C5 — ensure-label idempotence -/

/-- C5: for a label absent from the store, two `ensureLabel`
invocations issue exactly one create call: the first looks the name up,
receives the not-found response and creates; the second finds the label
via the lookup and performs no create and no further store change.
Moreover `ensureLabel` issues a create only on the 404 response. -/
theorem c5_ensure_label_idempotent (labels : List (String × String)) (name color : String)
    (h : storeLookup labels name = .httpErr 404) :
    countCreates ((ensureLabelStore labels name color).2 ++
      (ensureLabelStore (ensureLabelStore labels name color).1 name color).2) = 1
    ∧ (ensureLabelStore (ensureLabelStore labels name color).1 name color).2
        = [.getLabel name]
    ∧ (ensureLabelStore (ensureLabelStore labels name color).1 name color).1
        = (ensureLabelStore labels name color).1
    ∧ (∀ lk : LookupOutcome, (ensureLabelSL lk).createCalled = true → lk = .httpErr 404) := by
  have hany : labels.any (fun e => e.1 == name) = false := by
    cases ha : labels.any (fun e => e.1 == name)
    · rfl
    · rw [storeLookup, ha] at h
      simp at h
  have h1 : ensureLabelStore labels name color
      = (labels ++ [(name, color)], [.getLabel name, .createLabel name color]) := by
    rw [ensureLabelStore, storeLookup, hany]
    rfl
  have hany2 : (labels ++ [(name, color)]).any (fun e => e.1 == name) = true := by
    simp [List.any_append]
  have h2 : ensureLabelStore (labels ++ [(name, color)]) name color
      = (labels ++ [(name, color)], [.getLabel name]) := by
    rw [ensureLabelStore, storeLookup, hany2]
    rfl
  refine ⟨?_, ?_, ?_, ?_⟩
  · rw [h1]
    simp only [h2]
    simp [countCreates]
  · rw [h1]
    simp only [h2]
  · rw [h1]
    simp only [h2]
  · intro lk hlk
    cases lk with
    | ok => simp [ensureLabelSL] at hlk
    | httpErr c =>
      rw [ensureLabelSL] at hlk
      cases hc : c == 404
      · rw [hc] at hlk
        simp at hlk
      · have : c = 404 := by simpa using hc
        rw [this]

/-- C5 witness: the theorem applied to an empty label store — two
invocations for `"Q4 2025"` issue exactly one create. -/
theorem c5_witness :
    countCreates ((ensureLabelStore [] "Q4 2025" "FBCA04").2 ++
      (ensureLabelStore (ensureLabelStore [] "Q4 2025" "FBCA04").1 "Q4 2025" "FBCA04").2) = 1 :=
  (c5_ensure_label_idempotent [] "Q4 2025" "FBCA04" (by decide)).1

/-! ## Claim C6 — ensure-label error handling -/

/-- C6 (amended): only the 404 response triggers the create path in
`sync-local.js`'s `ensureLabel`, but a non-404 lookup failure is
silently swallowed — no create, and no error escapes to the caller —
rather than propagating as a fatal error; the first `sync-issues.js`
variant even creates the label on any lookup failure whatsoever.
No variant ever rethrows a caught lookup error. -/
theorem c6_lookup_failure (c : Nat) (h : c ≠ 404) :
    ensureLabelSL (.httpErr c) = { createCalled := false, errorThrown := false }
    ∧ ensureLabelSI1 (.httpErr c) = { createCalled := true, errorThrown := false }
    ∧ ensureLabelSL (.httpErr 404) = { createCalled := true, errorThrown := false }
    ∧ (∀ lk : LookupOutcome, (ensureLabelSL lk).errorThrown = false
        ∧ (ensureLabelSI1 lk).errorThrown = false) := by
  have hc : (c == 404) = false := by simpa using h
  refine ⟨by simp [ensureLabelSL, hc], by simp [ensureLabelSI1], by decide, ?_⟩
  intro lk
  cases lk with
  | ok => exact ⟨rfl, rfl⟩
  | httpErr c2 =>
    constructor
    · rw [ensureLabelSL]
      cases c2 == 404 <;> rfl
    · rfl

/-- C6 witness: the amended theorem applied to a 500 lookup failure. -/
theorem c6_witness :
    ensureLabelSL (.httpErr 500) = { createCalled := false, errorThrown := false }
    ∧ ensureLabelSI1 (.httpErr 500) = { createCalled := true, errorThrown := false } :=
  ⟨(c6_lookup_failure 500 (by decide)).1, (c6_lookup_failure 500 (by decide)).2.1⟩

/-- C6 counterexample: a 500 lookup failure in `sync-local.js`'s
`ensureLabel` triggers no create and lets no error escape — it is
swallowed, not propagated as fatal. -/
theorem c6_counterexample :
    ensureLabelSL (.httpErr 500)
      = { createCalled := false, errorThrown := false } := by decide

/-! ## Claim C7 — Schedule Field Updater independence -/

/-- C7: the two date fields are set independently; an empty date for
either field issues no write for that field and never clears a
previously set value, while the other, non-empty field is still
updated — in both the `sync-issues.js` caller/`updateProjectItemDate`
pair and the Apps Script `updateProjectDates`. -/
theorem c7_dates_independent (it : BoardItem) (s e : String) :
    (s ≠ "" →
      setItemDates it (some s) none
        = ({ startVal := some s, endVal := it.endVal }, [(.startF, s)])
      ∧ updateProjectDates it s "" true true
        = ({ startVal := some s, endVal := it.endVal }, [(.startF, s)]))
    ∧ (e ≠ "" →
      setItemDates it none (some e)
        = ({ startVal := it.startVal, endVal := some e }, [(.endF, e)])
      ∧ updateProjectDates it "" e true true
        = ({ startVal := it.startVal, endVal := some e }, [(.endF, e)]))
    ∧ updateProjectItemDate it .startF none = (it, [])
    ∧ updateProjectItemDate it .endF none = (it, []) := by
  refine ⟨?_, ?_, rfl, rfl⟩
  · intro hs
    have hs' : (s == "") = false := by simpa using hs
    constructor
    · simp [setItemDates, updateProjectItemDate, setFieldVal, hs', bne]
    · simp [updateProjectDates, setFieldVal, hs', bne]
  · intro he
    have he' : (e == "") = false := by simpa using he
    constructor
    · simp [setItemDates, updateProjectItemDate, setFieldVal, he', bne]
    · simp [updateProjectDates, setFieldVal, he', bne]

/-- C7 witness: the theorem applied to an item with a previously set
end date — setting only the start date issues one write and leaves the
end date untouched. -/
theorem c7_witness :
    setItemDates ⟨none, some "2024-01-01"⟩ (some "2025-10-01") none
      = (⟨some "2025-10-01", some "2024-01-01"⟩, [(.startF, "2025-10-01")])
    ∧ updateProjectDates ⟨none, some "2024-01-01"⟩ "2025-10-01" "" true true
      = (⟨some "2025-10-01", some "2024-01-01"⟩, [(.startF, "2025-10-01")]) :=
  (c7_dates_independent ⟨none, some "2024-01-01"⟩ "2025-10-01" "2025-12-31").1 (by decide)

/-! ## Claim C8 — snapshot fetched once, but creations not appended -/

/-- C8 (amended): the RemoteItem snapshot is fetched exactly once per
batch run and the in-memory lookup view is never modified during the
run — in particular, items created mid-run are NOT appended to it, so
every row's lookup consults the unmodified initial snapshot. -/
theorem c8_snapshot_invariant (rows : List RowSL) (w : World) :
    (runBatchSL rows w).view = w.issues
    ∧ (runBatchSL rows w).calls.count ApiCall.fetchIssues = 1 := by
  unfold runBatchSL
  refine ⟨(runBatch_aux rows _).1, ?_⟩
  rw [(runBatch_aux rows _).2]
  rfl

/-- C8 counterexample: two identical rows against an empty tracker
yield two creates of the same title — the second row's lookup did not
see the item created by the first, so created items are not appended
to the lookup view. -/
theorem c8_counterexample :
    (runBatchSL [⟨"Phase 1: Setup", "Kickoff", ""⟩, ⟨"Phase 1: Setup", "Kickoff", ""⟩]
      ⟨[], [], 1⟩).counts = { created := 2, updated := 0, skipped := 0 }
    ∧ (runBatchSL [⟨"Phase 1: Setup", "Kickoff", ""⟩, ⟨"Phase 1: Setup", "Kickoff", ""⟩]
      ⟨[], [], 1⟩).world.issues
      = [⟨1, "[Phase 1] Kickoff"⟩, ⟨2, "[Phase 1] Kickoff"⟩] := by decide

/-! ## Claim C9 — unknown month abbreviation falls back to "01" -/

/-- C9: on any string matching the `D-Mon-YYYY` / `DD-Mon-YYYY`
pattern whose three-letter month token is not one of the twelve known
abbreviations, every `parseDate` variant substitutes month `"01"`
instead of failing, producing `YYYY-01-DD`. -/
theorem c9_unknown_month (s : String) (env : JsEnv) (dayCs monCs yearCs : List Char)
    (hne : s ≠ "") (hre : searchDMY s.data = some (dayCs, monCs, yearCs))
    (hm : monthsLookup (String.mk monCs) = none) :
    syncLocalParseDate env (.str s)
      = some (String.mk yearCs ++ "-" ++ "01" ++ "-" ++ padStart2 (String.mk dayCs))
    ∧ syncIssues2ParseDate env (.str s)
      = some (String.mk yearCs ++ "-" ++ "01" ++ "-" ++ padStart2 (String.mk dayCs))
    ∧ (jsTrim s = s → typesParseDate env (.str s)
      = String.mk yearCs ++ "-" ++ "01" ++ "-" ++ padStart2 (String.mk dayCs)) := by
  have hne' : (s == "") = false := by simpa using hne
  have hr : dmyResult dayCs monCs yearCs
      = String.mk yearCs ++ "-" ++ "01" ++ "-" ++ padStart2 (String.mk dayCs) := by
    simp [dmyResult, monthOr01, hm]
  refine ⟨?_, ?_, fun htr => ?_⟩
  · simp [syncLocalParseDate, hne', hre, hr]
  · simp [syncIssues2ParseDate, hne', hre, hr]
  · simp [typesParseDate, hne', htr, hre, hr]

/-- C9 witness: the theorem applied to `"15-Foo-2025"` — every variant
returns `"2025-01-15"`. -/
theorem c9_witness :
    syncLocalParseDate envUTC (.str "15-Foo-2025") = some "2025-01-15"
    ∧ syncIssues2ParseDate envUTC (.str "15-Foo-2025") = some "2025-01-15"
    ∧ typesParseDate envUTC (.str "15-Foo-2025") = "2025-01-15" := by
  have h := c9_unknown_month "15-Foo-2025" envUTC ['1', '5'] ['F', 'o', 'o'] ['2', '0', '2', '5']
    (by decide) (by decide) (by decide)
  refine ⟨?_, ?_, ?_⟩
  · rw [h.1]; decide
  · rw [h.2.1]; decide
  · rw [h.2.2 (by decide)]; decide

/-! ## Claim C10 — dashboard ignores the Status column -/

/-- C10: per-task status and progress are computed solely from the
parsed start and end dates, and `fetchProjectData` never reads any
column whose header matches none of its keyword searches — so two
sheets with identical headers whose data rows differ only in such a
column (in particular, the Status column) produce identical dashboard
data: tasks, phases, stats and all. -/
theorem c10_status_noninterference (env : JsEnv) (k : Nat) (headerRow : List CellValue)
    (d1 d2 : List (List CellValue))
    (hcols : ColsAvoid k (computeCols (headerRow.map (jsStringOfCell env))))
    (hag : List.Forall₂ (RowsAgree k) d1 d2) :
    buildProjectData env (headerRow :: d1) = buildProjectData env (headerRow :: d2) := by
  have hlen : d1.length = d2.length := hag.length_eq
  simp only [buildProjectData]
  rw [hlen, buildTasks_agree env _ hcols hag 1]

/-- C10 witness: the theorem applied to two concrete one-row sheets
that differ only in the Status column value. -/
theorem c10_witness :
    buildProjectData envUTC
      [[CellValue.str "Phase", .str "Activity", .str "Start Date", .str "End Date", .str "Status"],
       [.str "Phase 1: X", .str "Kickoff", .str "2025-09-01", .str "2025-12-31", .str "Started"]]
    = buildProjectData envUTC
      [[CellValue.str "Phase", .str "Activity", .str "Start Date", .str "End Date", .str "Status"],
       [.str "Phase 1: X", .str "Kickoff", .str "2025-09-01", .str "2025-12-31", .str "Completed"]] := by
  refine c10_status_noninterference envUTC 4 _ _ _ (by decide) ?_
  refine List.Forall₂.cons ⟨rfl, ?_⟩ List.Forall₂.nil
  intro j hj
  match j with
  | 0 => rfl
  | 1 => rfl
  | 2 => rfl
  | 3 => rfl
  | 4 => exact absurd rfl hj
  | n + 5 => rfl

end PP
